import Mathlib

/-!
# Signalling relay of `server/main.go`

A shallow embedding of the connection registry (`users`, `usersMutex`), the
message handlers and the call ledger kept in `callsCollection`.

* A `*websocket.Conn` is a natural number (pointer identity).
* The Go map `users` is a list of key/value pairs; `Registry.WF` says that the
  keys are distinct, as they are in every Go map.  `range` over a map visits the
  entries in an order the environment picks.
* `usersMutex` is a boolean; `Lock` on a held mutex parks the goroutine, and in
  this one-goroutine view nobody is left to release it (`Outcome.blocked`).
* A `time.Time` is an integer count of nanoseconds since `time.Time{}`, a
  `time.Duration` an integer count of nanoseconds; `Seconds()` only rescales and
  is kept exact, so the `duration` field is held in nanoseconds.
* `callsCollection` is the list of its documents in natural order; `FindOne` and
  `UpdateOne` act on the first document that matches the filter.
* Everything the outside world decides (clock, transport and store failures,
  map iteration order) is read from an `Env`.
-/

namespace Server

/-! ## Data model -/

/-- A `*websocket.Conn`, by identity. -/
abbrev Conn := Nat

/-- A `time.Time`: nanoseconds since `time.Time{}`. -/
abbrev Time := Int

/-- A `time.Duration`: nanoseconds. -/
abbrev Duration := Int

/-- The value `time.Time{}`. -/
def zeroTime : Time := 0

/-- Largest `time.Duration` (`1<<63 - 1`). -/
def maxDuration : Duration := 9223372036854775807

/-- Smallest `time.Duration` (`-1 << 63`). -/
def minDuration : Duration := -9223372036854775808

/-- The method `Time.Sub`: the difference `t - u`, saturated to the range of `Duration`. -/
def Time.sub (t u : Time) : Duration :=
  let d := t - u
  if minDuration ≤ d ∧ d ≤ maxDuration then d
  else if t < u then minDuration
  else maxDuration

/-- What an `interface{}` field of `Message` holds. -/
inductive Payload where
  /-- The nil interface (field missing in the frame). -/
  | absent
  /-- A value decoded from a client frame; the server never looks inside. -/
  | json (raw : String)
  /-- The server-built `map[string]string{"clientId": id}`. -/
  | clientId (id : String)
  /-- The server-built `map[string][]string{"userIds": ids}`. -/
  | userIds (ids : List String)
deriving DecidableEq, Repr

/-- The struct `Message` (`Type_` is the field `Type`, a reserved word here). -/
structure Message where
  Type_ : String := ""
  Data : Payload := Payload.absent
  From : String := ""
  To : String := ""
  Candidate : Payload := Payload.absent
  Offer : Payload := Payload.absent
  Answer : Payload := Payload.absent
deriving DecidableEq, Repr

/-- The struct `Call`, as a document of `callsCollection`. -/
structure Call where
  ID : Nat
  From : String
  To : String
  StartTime : Time
  EndTime : Time
  Duration : Duration
deriving DecidableEq, Repr

/-- One call of `conn.WriteMessage`: the connection, the message whose JSON text is
the frame, and whether the transport took it. -/
structure Write where
  conn : Conn
  msg : Message
  delivered : Bool
deriving DecidableEq, Repr

/-- The map `users`: identifier to connection (`User.Peer` is never set or read). -/
abbrev Registry := List (String × Conn)

/-- The mutable state the handlers share, plus the record of their effects. -/
structure World where
  /-- The map `users`. -/
  users : Registry := []
  /-- Whether `usersMutex` is held. -/
  mutexHeld : Bool := false
  /-- Connections on which `Close` was called. -/
  closed : List Conn := []
  /-- Every `WriteMessage` call so far, oldest first. -/
  writes : List Write := []
  /-- The documents of `callsCollection`, in natural order. -/
  calls : List Call := []
deriving DecidableEq, Repr

/-- What the outside world decides during one handler call. -/
structure Env where
  /-- The reading of `time.Now()`. -/
  now : Time
  /-- Whether `WriteMessage` on this connection returns an error. -/
  writeErr : Conn → Bool
  /-- Whether `InsertOne` returns an error. -/
  insertErr : Bool
  /-- Whether the k-th `FindOne` of the handler fails for a reason other than
  `ErrNoDocuments`. -/
  findErr : Nat → Bool
  /-- Whether the k-th `UpdateOne` of the handler returns an error. -/
  updateErr : Nat → Bool
  /-- The order in which the k-th `range` loop of the handler visits the map. -/
  rangeOrder : Nat → Registry → Registry

/-- How a call ends: it returns, or its goroutine is parked for ever in `Lock`. -/
inductive Outcome where
  | done (w : World)
  | blocked (w : World)
deriving DecidableEq, Repr

/-- The state a call leaves behind, either way. -/
def Outcome.world : Outcome → World
  | Outcome.done w => w
  | Outcome.blocked w => w

/-- Whether the call returned. -/
def Outcome.returned : Outcome → Bool
  | Outcome.done _ => true
  | Outcome.blocked _ => false

/-! ## The map `users` -/

/-- The lookup `users[k]` with its `ok` flag. -/
def Registry.lookup : Registry → String → Option Conn
  | [], _ => none
  | (k', c) :: m, k => if k' = k then some c else Registry.lookup m k

/-- The builtin `delete(users, k)`. -/
def Registry.delete (m : Registry) (k : String) : Registry :=
  m.filter (fun e => decide (e.1 ≠ k))

/-- The assignment `users[k] = c`. -/
def Registry.assign (m : Registry) (k : String) (c : Conn) : Registry :=
  Registry.delete m k ++ [(k, c)]

/-- The identifiers currently in the map. -/
def Registry.keys (m : Registry) : List String := m.map Prod.fst

/-- The connections currently in the map. -/
def Registry.conns (m : Registry) : List Conn := m.map Prod.snd

/-- A Go map holds each key once. -/
def Registry.WF (m : Registry) : Prop := (Registry.keys m).Nodup

/-! ## `usersMutex` -/

/-- The method `usersMutex.Lock()`. -/
def lock (w : World) : Outcome :=
  if w.mutexHeld then Outcome.blocked w
  else Outcome.done { w with mutexHeld := true }

/-- The method `usersMutex.Unlock()`. -/
def unlock (w : World) : World := { w with mutexHeld := false }

/-- The pattern `usersMutex.Lock(); defer usersMutex.Unlock(); body`. -/
def withLock (body : World → Outcome) (w : World) : Outcome :=
  match lock w with
  | Outcome.blocked w1 => Outcome.blocked w1
  | Outcome.done w1 =>
    match body w1 with
    | Outcome.done w2 => Outcome.done (unlock w2)
    | Outcome.blocked w2 => Outcome.blocked w2

/-! ## Sending and identifiers -/

/-- The function `sendMessage`: one `WriteMessage` with the JSON text of `msg`; a
write error is logged and dropped.  (`json.Marshal` cannot fail on a `Message`
decoded from a frame or built from the server's string maps.) -/
def sendMessage (env : Env) (conn : Conn) (msg : Message) (w : World) : World :=
  { w with writes := w.writes ++ [⟨conn, msg, !env.writeErr conn⟩] }

/-- The table `animalNames`. -/
def animalNames : List String :=
  ["🐶 Puppy", "🐱 Kitty", "🐭 Mouse", "🐹 Hamster", "🐰 Bunny", "🦊 Fox", "🐻 Bear", "🐼 Panda",
   " Koala", "🐯 Tiger", "🦁 Lion", "🐮 Cow", "🐷 Piggy", "🐸 Froggy", "🐵 Monkey", "🐔 Chicken",
   "🦄 Unicorn", "🐙 Octopus", "🦋 Butterfly", "🦜 Parrot", "🦒 Giraffe", "🦘 Kangaroo", "🦥 Sloth",
   "🦦 Otter"]

/-- The function `generateClientID`; `randomIndex` is what `rand.Intn(len(animalNames))`
returned. -/
def generateClientID (randomIndex : Fin animalNames.length) : String :=
  animalNames.get randomIndex

/-! ## `handleConnections` -/

/-- Lines 142-151 of `handleConnections`: under the lock, close and drop the old user
of `clientID` if there is one, then install the new connection. -/
def registerClient (clientID : String) (ws : Conn) (w : World) : Outcome :=
  match lock w with
  | Outcome.blocked w1 => Outcome.blocked w1
  | Outcome.done w1 =>
    let w2 :=
      match Registry.lookup w1.users clientID with
      | some existing =>
        { w1 with closed := w1.closed ++ [existing],
                  users := Registry.delete w1.users clientID }
      | none => w1
    let w3 := { w2 with users := Registry.assign w2.users clientID ws }
    Outcome.done (unlock w3)

/-- The function `updateUserList`: under the lock, collect the identifiers in one
`range` loop and send the list to every user in a second one. -/
def updateUserList (env : Env) (w : World) : Outcome :=
  withLock (fun w1 =>
    let userIds := (env.rangeOrder 0 w1.users).map Prod.fst
    let msg : Message := { Type_ := "requestUserList", Data := Payload.userIds userIds }
    Outcome.done
      ((env.rangeOrder 1 w1.users).foldl (fun acc user => sendMessage env user.2 msg acc) w1)) w

/-- The function `removeUser`: under the lock, delete the identifier, then call
`updateUserList`. -/
def removeUser (env : Env) (clientID : String) (w : World) : Outcome :=
  withLock (fun w1 =>
    updateUserList env { w1 with users := Registry.delete w1.users clientID }) w

/-- Lines 141-160 of `handleConnections`: draw an identifier, register the connection,
send it its identifier, broadcast the user list. -/
def connect (env : Env) (randomIndex : Fin animalNames.length) (ws : Conn) (w : World) :
    Outcome :=
  let clientID := generateClientID randomIndex
  match registerClient clientID ws w with
  | Outcome.blocked w1 => Outcome.blocked w1
  | Outcome.done w1 =>
    updateUserList env
      (sendMessage env ws { Type_ := "clientId", Data := Payload.clientId clientID } w1)

/-- Lines 165-169 and 202-206 of `handleConnections`, with the deferred `ws.Close()` of
line 136: what the session on `ws` does once `ReadMessage` fails:
`removeUser(clientID)`, leave the loop, delete the identifier once more under
the lock, return, close `ws`. -/
def disconnect (env : Env) (clientID : String) (ws : Conn) (w : World) : Outcome :=
  match removeUser env clientID w with
  | Outcome.blocked w1 => Outcome.blocked w1
  | Outcome.done w1 =>
    match lock w1 with
    | Outcome.blocked w2 => Outcome.blocked w2
    | Outcome.done w2 =>
      let w3 := unlock { w2 with users := Registry.delete w2.users clientID }
      Outcome.done { w3 with closed := w3.closed ++ [ws] }

/-! ## `callsCollection` -/

/-- The `_id` that the driver gives a document inserted without one: not in use yet. -/
def freshID (calls : List Call) : Nat := (calls.map Call.ID).foldr max 0 + 1

/-- The method `InsertOne`; `fail` says that it returns an error. -/
def insertOne (fail : Bool) (call : Call) (calls : List Call) : List Call :=
  if fail then calls else calls ++ [{ call with ID := freshID calls }]

/-- The method `FindOne(...).Decode`; `none` is an error, `ErrNoDocuments` included. -/
def findOne (fail : Bool) (filter : Call → Bool) (calls : List Call) : Option Call :=
  if fail then none else calls.find? filter

/-- Apply `set` to the first document that matches `filter`. -/
def updateFirst (filter : Call → Bool) (set : Call → Call) : List Call → List Call
  | [] => []
  | c :: cs => if filter c then set c :: cs else c :: updateFirst filter set cs

/-- The method `UpdateOne`; `none` is an error, otherwise `MatchedCount` and the
collection afterwards. -/
def updateOne (fail : Bool) (filter : Call → Bool) (set : Call → Call) (calls : List Call) :
    Option (Nat × List Call) :=
  if fail then none
  else some (if calls.any filter then 1 else 0, updateFirst filter set calls)

/-- The filter of line 325: `from` or `to` is `id`, and `end_time` is the zero time. -/
def involvesOpen (id : String) (c : Call) : Bool :=
  decide ((c.From = id ∨ c.To = id) ∧ c.EndTime = zeroTime)

/-- The filter of line 397: the two parties are `a` and `b`, in either direction. -/
def between (a b : String) (c : Call) : Bool :=
  decide ((c.From = a ∧ c.To = b) ∨ (c.From = b ∧ c.To = a))

/-- The filter of line 363: as `between`, and `end_time` is the zero time. -/
def betweenOpen (a b : String) (c : Call) : Bool :=
  decide (((c.From = a ∧ c.To = b) ∨ (c.From = b ∧ c.To = a)) ∧ c.EndTime = zeroTime)

/-- The filter of line 414: `_id` is `id`. -/
def hasID (id : Nat) (c : Call) : Bool := decide (c.ID = id)

/-! ## The message handlers -/

/-- The function `handleMediaOffer`. -/
def handleMediaOffer (env : Env) (fromClientID : String) (msg : Message) (w : World) :
    Outcome :=
  withLock (fun w1 =>
    let toClientID := msg.To
    match Registry.lookup w1.users toClientID with
    | some conn =>
      let w2 := sendMessage env conn msg w1
      let call : Call :=
        { ID := 0, From := fromClientID, To := toClientID, StartTime := env.now,
          EndTime := zeroTime, Duration := 0 }
      Outcome.done { w2 with calls := insertOne env.insertErr call w2.calls }
    | none => Outcome.done w1) w

/-- The function `handleMediaAnswer`. -/
def handleMediaAnswer (env : Env) (_fromClientID : String) (msg : Message) (w : World) :
    Outcome :=
  withLock (fun w1 =>
    match Registry.lookup w1.users msg.To with
    | some conn => Outcome.done (sendMessage env conn msg w1)
    | none => Outcome.done w1) w

/-- The function `handleICECandidate`. -/
def handleICECandidate (env : Env) (_fromClientID : String) (msg : Message) (w : World) :
    Outcome :=
  withLock (fun w1 =>
    match Registry.lookup w1.users msg.To with
    | some conn => Outcome.done (sendMessage env conn msg w1)
    | none => Outcome.done w1) w

/-- Lines 321-349 of `handleHangup`: the target is `msg.To`, or when that is empty the
other party of the first open call of the sender; `none` is the early return. -/
def hangupTarget (env : Env) (fromClientID : String) (msg : Message) (calls : List Call) :
    Option String :=
  if msg.To = "" then
    match findOne (env.findErr 0) (involvesOpen fromClientID) calls with
    | none => none
    | some call => some (if call.From = fromClientID then call.To else call.From)
  else some msg.To

/-- Lines 352-359 of `handleHangup`: forward the message to the target. -/
def forwardHangup (env : Env) (fromClientID toClientID : String) (msg : Message)
    (w : World) : World :=
  if toClientID ≠ "" ∧ toClientID ≠ fromClientID then
    match Registry.lookup w.users toClientID with
    | some conn => sendMessage env conn msg w
    | none => w
  else w

/-- Lines 362-419 of `handleHangup`: close the first open call between the two, fetch
"the updated call" with the same filter (then without the `end_time` clause), and
write that document's duration. -/
def closeCall (env : Env) (fromClientID toClientID : String) (calls : List Call) :
    List Call :=
  let endTime := env.now
  let filter := betweenOpen fromClientID toClientID
  match updateOne (env.updateErr 0) filter
      (fun c => { c with EndTime := endTime, Duration := Time.sub endTime zeroTime }) calls with
  | none => calls
  | some (matchedCount, calls1) =>
    if matchedCount = 0 then calls1
    else
      let fetched :=
        match findOne (env.findErr 1) filter calls1 with
        | some c => some c
        | none => findOne (env.findErr 2) (between fromClientID toClientID) calls1
      match fetched with
      | none => calls1
      | some updatedCall =>
        let duration := Time.sub updatedCall.EndTime updatedCall.StartTime
        match updateOne (env.updateErr 1) (hasID updatedCall.ID)
            (fun c => { c with Duration := duration }) calls1 with
        | none => calls1
        | some (_, calls2) => calls2

/-- The function `handleHangup`. -/
def handleHangup (env : Env) (fromClientID : String) (msg : Message) (w : World) : Outcome :=
  withLock (fun w1 =>
    match hangupTarget env fromClientID msg w1.calls with
    | none => Outcome.done w1
    | some toClientID =>
      let w2 := forwardHangup env fromClientID toClientID msg w1
      Outcome.done { w2 with calls := closeCall env fromClientID toClientID w2.calls }) w

/-- The `switch msg.Type` of `handleConnections` (lines 181-199). -/
def dispatch (env : Env) (clientID : String) (msg : Message) (w : World) : Outcome :=
  if msg.Type_ = "mediaOffer" then handleMediaOffer env clientID msg w
  else if msg.Type_ = "mediaAnswer" then handleMediaAnswer env clientID msg w
  else if msg.Type_ = "iceCandidate" then handleICECandidate env clientID msg w
  else if msg.Type_ = "requestUserList" then updateUserList env w
  else if msg.Type_ = "hangup" then handleHangup env clientID msg w
  else Outcome.done w

/-! ## Sample environments and states -/

/-- An environment in which nothing fails and `range` follows the list. -/
def calmEnv (now : Time) : Env :=
  { now := now, writeErr := fun _ => false, insertErr := false, findErr := fun _ => false,
    updateErr := fun _ => false, rangeOrder := fun _ m => m }

/-- The clock reading of 2025-01-01T00:00:00Z: nanoseconds since `time.Time{}`. -/
def t2025 : Time := 63871286400000000000

/-- One second, in nanoseconds. -/
def second : Duration := 1000000000

/-- A run of connects, each taking the registration step with the identifier drawn
for it. -/
def registerAll : List (Fin animalNames.length × Conn) → World → World
  | [], w => w
  | (i, c) :: rest, w => registerAll rest (registerClient (generateClientID i) c w).world

/-- What routing a message means for the outcome `o` of a handler started in `w`: the
handler returned, the registry, the mutex and the store are as before, and the
writes grew by exactly one frame, `msg` itself on the connection of `msg.To`, or
by none when `msg.To` is not registered. -/
def Routed (env : Env) (msg : Message) (w : World) (o : Outcome) : Prop :=
  ∃ w1 : World, o = Outcome.done w1 ∧ w1.users = w.users ∧ w1.mutexHeld = false ∧
    w1.closed = w.closed ∧
    match Registry.lookup w.users msg.To with
    | some conn => w1.writes = w.writes ++ [⟨conn, msg, !env.writeErr conn⟩]
    | none => w1.writes = w.writes

/-- An environment whose transport refuses every write; nothing else fails. -/
def lossyEnv (now : Time) : Env :=
  { calmEnv now with writeErr := fun _ => true }

/-- A registry with one user. -/
def oneUser : World := { users := [("🐶 Puppy", 1)] }

/-- A registry with two users. -/
def twoUsers : World := { users := [("🐶 Puppy", 1), ("🐱 Kitty", 2)] }

/-- An offer addressed to the second user of `twoUsers`. -/
def offerToKitty : Message :=
  { Type_ := "mediaOffer", From := "🐶 Puppy", To := "🐱 Kitty",
    Offer := Payload.json "sdp" }

/-- A hangup addressed to the second user of `twoUsers`. -/
def hangupToKitty : Message :=
  { Type_ := "hangup", From := "🐶 Puppy", To := "🐱 Kitty" }

/-- The state after a first call between the two users of `twoUsers`: offer at
`t2025`, hangup one minute later. -/
def afterFirstCall : World :=
  (handleHangup (calmEnv (t2025 + 60 * second)) "🐶 Puppy" hangupToKitty
    (handleMediaOffer (calmEnv t2025) "🐶 Puppy" offerToKitty twoUsers).world).world

/-- The state after a second call between the same two: offer two minutes after the
first one, hangup three minutes after that. -/
def afterSecondCall : World :=
  (handleHangup (calmEnv (t2025 + 300 * second)) "🐶 Puppy" hangupToKitty
    (handleMediaOffer (calmEnv (t2025 + 120 * second)) "🐶 Puppy" offerToKitty
      afterFirstCall).world).world

/-- The duration invariant on one record: open, or closed with a duration that is
`end_time - start_time` and not negative. -/
def durationOK (c : Call) : Bool :=
  decide (c.EndTime = zeroTime ∨ (c.Duration = c.EndTime - c.StartTime ∧ 0 ≤ c.Duration))

/-- The state after a second session has drawn the identifier of the only user of
`oneUser` and connected on connection 2. -/
def afterCollision : World := (connect (calmEnv t2025) ⟨0, by decide⟩ 2 oneUser).world

/-- The roster message that `updateUserList` builds from the list `ids`. -/
def rosterMessage (ids : List String) : Message :=
  { Type_ := "requestUserList", Data := Payload.userIds ids }

/-- A third user, with no call on record, next to a finished call of the other two. -/
def threeUsers : World :=
  { afterFirstCall with users := [("🐶 Puppy", 1), ("🐱 Kitty", 2), ("🐭 Mouse", 3)] }

/-- An environment in which `range` walks the map backwards. -/
def backwardsEnv (now : Time) : Env :=
  { calmEnv now with rangeOrder := fun _ m => m.reverse }

/-- The update of line 371: set `end_time` to the clock reading and `duration` to the
placeholder `endTime.Sub(time.Time{})`. -/
def closeNow (env : Env) (c : Call) : Call :=
  { c with EndTime := env.now, Duration := Time.sub env.now zeroTime }

/-- The update of line 415: set `duration`. -/
def setDuration (d : Duration) (c : Call) : Call := { c with Duration := d }

/-- How many records of the store have a different `end_time` afterwards (records keep
their place in the store). -/
def endTimeChanges (before after : List Call) : Nat :=
  (((before.map Call.EndTime).zip (after.map Call.EndTime)).filter
    (fun p => decide (p.1 ≠ p.2))).length

/-- What a hangup from `X` with target `Y` may do to one record: identity, parties
and start stay, and `end_time` changes only on a record that was open and lies
between `X` and `Y`. -/
def HangupKeeps (X Y : String) (c c1 : Call) : Prop :=
  c1.ID = c.ID ∧ c1.From = c.From ∧ c1.To = c.To ∧ c1.StartTime = c.StartTime ∧
  (c1.EndTime ≠ c.EndTime → c.EndTime = zeroTime ∧ between X Y c = true)

/-- One event of the ledger, with the environment it meets. -/
inductive LedgerEvent where
  | offer (env : Env) (fromClientID : String) (msg : Message)
  | hangup (env : Env) (fromClientID : String) (msg : Message)

/-- The state after one event. -/
def LedgerEvent.apply : LedgerEvent → World → World
  | LedgerEvent.offer env fromClientID msg, w => (handleMediaOffer env fromClientID msg w).world
  | LedgerEvent.hangup env fromClientID msg, w => (handleHangup env fromClientID msg w).world

/-- The state after a sequence of events. -/
def runEvents : List LedgerEvent → World → World
  | [], w => w
  | e :: es, w => runEvents es (LedgerEvent.apply e w)

/-- The state while the first call between the two users of `twoUsers` is open. -/
def duringCall : World :=
  (handleMediaOffer (calmEnv t2025) "🐶 Puppy" offerToKitty twoUsers).world

/-- A hangup that names no target. -/
def hangupNoTarget : Message := { Type_ := "hangup", From := "🐱 Kitty" }

/-- An environment whose store refuses every `UpdateOne`; nothing else fails. -/
def brokenUpdateEnv (now : Time) : Env :=
  { calmEnv now with updateErr := fun _ => true }

/-- Two open calls between the two users of `twoUsers`, started before the zero time. -/
def twoOpenCalls : World :=
  { twoUsers with
    calls := [⟨1, "🐶 Puppy", "🐱 Kitty", -100 * second, zeroTime, 0⟩,
              ⟨2, "🐶 Puppy", "🐱 Kitty", -50 * second, zeroTime, 0⟩] }

/-! ## Facts about the map -/

theorem Registry.delete_cons_self (m : Registry) (k : String) (c : Conn) :
    Registry.delete ((k, c) :: m) k = Registry.delete m k := by
  simp [Registry.delete]

theorem Registry.delete_cons_ne (m : Registry) {k k0 : String} (c : Conn) (h : k0 ≠ k) :
    Registry.delete ((k0, c) :: m) k = (k0, c) :: Registry.delete m k := by
  simp [Registry.delete, h]

theorem Registry.lookup_delete_self (m : Registry) (k : String) :
    Registry.lookup (Registry.delete m k) k = none := by
  induction m with
  | nil => rfl
  | cons e m ih =>
    obtain ⟨k', c⟩ := e
    by_cases h : k' = k
    · rw [h, Registry.delete_cons_self]
      exact ih
    · rw [Registry.delete_cons_ne m c h]
      simpa [Registry.lookup, h] using ih

theorem Registry.lookup_delete_ne (m : Registry) {k k' : String} (h : k' ≠ k) :
    Registry.lookup (Registry.delete m k) k' = Registry.lookup m k' := by
  induction m with
  | nil => rfl
  | cons e m ih =>
    obtain ⟨k0, c⟩ := e
    by_cases h0 : k0 = k
    · have h1 : ¬ k = k' := fun h2 => h h2.symm
      rw [h0, Registry.delete_cons_self, ih]
      simp [Registry.lookup, h1]
    · rw [Registry.delete_cons_ne m c h0]
      by_cases h1 : k0 = k'
      · simp [Registry.lookup, h1]
      · simpa [Registry.lookup, h1] using ih

theorem Registry.lookup_append (m : Registry) (k : String) (c : Conn) (k' : String) :
    Registry.lookup (m ++ [(k, c)]) k' =
      match Registry.lookup m k' with
      | some c' => some c'
      | none => if k = k' then some c else none := by
  induction m with
  | nil => simp [Registry.lookup]
  | cons e m ih =>
    obtain ⟨k0, c0⟩ := e
    by_cases h : k0 = k'
    · simp [Registry.lookup, h]
    · simpa [Registry.lookup, h] using ih

theorem Registry.lookup_assign_self (m : Registry) (k : String) (c : Conn) :
    Registry.lookup (Registry.assign m k c) k = some c := by
  simp [Registry.assign, Registry.lookup_append, Registry.lookup_delete_self]

theorem Registry.lookup_assign_ne (m : Registry) {k k' : String} (c : Conn) (h : k' ≠ k) :
    Registry.lookup (Registry.assign m k c) k' = Registry.lookup m k' := by
  have h1 : ¬ k = k' := fun h2 => h h2.symm
  rw [Registry.assign, Registry.lookup_append, Registry.lookup_delete_ne m h]
  cases Registry.lookup m k' <;> simp [h1]

theorem Registry.delete_delete (m : Registry) (k : String) :
    Registry.delete (Registry.delete m k) k = Registry.delete m k := by
  simp [Registry.delete]

theorem Registry.entries_assign (m : Registry) (k : String) (c : Conn) :
    (Registry.assign m k c).filter (fun e => decide (e.1 = k)) = [(k, c)] := by
  simp [Registry.assign, Registry.delete, List.filter_append, List.filter_filter]

theorem Registry.mem_keys_delete (m : Registry) (k k' : String) :
    k' ∈ Registry.keys (Registry.delete m k) ↔ k' ∈ Registry.keys m ∧ k' ≠ k := by
  simp only [Registry.keys, Registry.delete, List.mem_map, List.mem_filter, decide_eq_true_eq]
  constructor
  · rintro ⟨e, ⟨he, hne⟩, rfl⟩
    exact ⟨⟨e, he, rfl⟩, hne⟩
  · rintro ⟨⟨e, he, rfl⟩, hne⟩
    exact ⟨e, ⟨he, hne⟩, rfl⟩

theorem Registry.WF_delete {m : Registry} (h : Registry.WF m) (k : String) :
    Registry.WF (Registry.delete m k) := by
  unfold Registry.WF Registry.keys Registry.delete at *
  exact (List.Sublist.map _ (List.filter_sublist _)).nodup h

theorem Registry.WF_assign {m : Registry} (h : Registry.WF m) (k : String) (c : Conn) :
    Registry.WF (Registry.assign m k c) := by
  have hd := Registry.WF_delete h k
  have hk : k ∉ Registry.keys (Registry.delete m k) := by
    rw [Registry.mem_keys_delete]
    exact fun h1 => h1.2 rfl
  unfold Registry.WF at *
  unfold Registry.assign
  simp only [Registry.keys, List.map_append, List.map_cons, List.map_nil] at *
  rw [List.nodup_append]
  refine ⟨hd, List.nodup_singleton _, ?_⟩
  intro a ha hb
  rw [List.mem_singleton] at hb
  exact hk (hb ▸ ha)

/-- The registration step spelled out: with the mutex free it returns, and the map
afterwards is the old one with `clientID` assigned to `ws`. -/
theorem registerClient_eq (clientID : String) (ws : Conn) (w : World)
    (hfree : w.mutexHeld = false) :
    registerClient clientID ws w =
      Outcome.done
        { w with
          users := Registry.assign w.users clientID ws,
          closed :=
            match Registry.lookup w.users clientID with
            | some existing => w.closed ++ [existing]
            | none => w.closed } := by
  obtain ⟨users, held, closed, writes, calls⟩ := w
  simp only at hfree
  subst hfree
  unfold registerClient lock unlock
  cases h : Registry.lookup users clientID with
  | none => simp [h]
  | some c' => simp [h, Registry.assign, Registry.delete_delete]

theorem Registry.WF_entries_le_one {m : Registry} (h : Registry.WF m) (k : String) :
    (m.filter (fun e => decide (e.1 = k))).length ≤ 1 := by
  induction m with
  | nil => simp
  | cons e m ih =>
    obtain ⟨k0, c⟩ := e
    have hcons : k0 ∉ Registry.keys m ∧ Registry.WF m := by
      simpa [Registry.WF, Registry.keys] using h
    by_cases h0 : k0 = k
    · have hnone : m.filter (fun e => decide (e.1 = k)) = [] := by
        rw [List.filter_eq_nil_iff]
        intro e he h1
        apply hcons.1
        rw [h0]
        simp only [decide_eq_true_eq] at h1
        exact List.mem_map.2 ⟨e, he, h1⟩
      simp [List.filter_cons, h0, hnone]
    · simpa [List.filter_cons, h0] using ih hcons.2

theorem registerAll_users_WF (connects : List (Fin animalNames.length × Conn)) :
    ∀ w : World, w.mutexHeld = false → Registry.WF w.users →
      (registerAll connects w).mutexHeld = false ∧ Registry.WF (registerAll connects w).users := by
  induction connects with
  | nil => intro w h1 h2; exact ⟨h1, h2⟩
  | cons e rest ih =>
    intro w h1 h2
    obtain ⟨i, c⟩ := e
    unfold registerAll
    rw [registerClient_eq _ _ _ h1]
    exact ih _ h1 (Registry.WF_assign h2 _ _)

/-! ## C1: the registration step -/

/-- C1: the registration step of `handleConnections`, taken with the mutex free,
returns with the mutex free again; the map then sends `id` to the new connection
`c` and holds no other entry for `id`; every other identifier keeps its mapping;
the connection `id` was mapped to before, if any, has been closed; and after any
sequence of connects from the empty registry each identifier has at most one
entry. -/
theorem registerClient_spec (w : World) (randomIndex : Fin animalNames.length) (c : Conn)
    (hfree : w.mutexHeld = false) :
    ∃ w1 : World,
      registerClient (generateClientID randomIndex) c w = Outcome.done w1 ∧
      w1.mutexHeld = false ∧
      Registry.lookup w1.users (generateClientID randomIndex) = some c ∧
      w1.users.filter (fun e => decide (e.1 = generateClientID randomIndex)) =
        [(generateClientID randomIndex, c)] ∧
      (∀ k : String, k ≠ generateClientID randomIndex →
        Registry.lookup w1.users k = Registry.lookup w.users k) ∧
      (∀ c1 : Conn, Registry.lookup w.users (generateClientID randomIndex) = some c1 →
        c1 ∈ w1.closed) ∧
      (∀ (connects : List (Fin animalNames.length × Conn)) (k : String),
        ((registerAll connects {}).users.filter (fun e => decide (e.1 = k))).length ≤ 1) := by
  refine ⟨_, registerClient_eq _ _ _ hfree, hfree, ?_, ?_, ?_, ?_, ?_⟩
  · exact Registry.lookup_assign_self _ _ _
  · exact Registry.entries_assign _ _ _
  · intro k hk
    exact Registry.lookup_assign_ne _ _ hk
  · intro c1 h1
    simp [h1]
  · intro connects k
    exact Registry.WF_entries_le_one (registerAll_users_WF connects {} rfl List.nodup_nil).2 k

/-- Witness of C1: a second session drawing the identifier of the only user replaces it,
and the old connection is closed. -/
theorem registerClient_spec_witness :
    oneUser.mutexHeld = false ∧
    ∃ w1 : World,
      registerClient (generateClientID ⟨0, by decide⟩) 2 oneUser = Outcome.done w1 ∧
      Registry.lookup w1.users (generateClientID ⟨0, by decide⟩) = some 2 ∧
      1 ∈ w1.closed := by
  refine ⟨rfl, ?_⟩
  obtain ⟨w1, h1, _, h3, _, _, h6, _⟩ := registerClient_spec oneUser ⟨0, by decide⟩ 2 rfl
  exact ⟨w1, h1, h3, h6 1 (by decide)⟩

/-! ## C2: routing of offers, answers and candidates -/

theorem withLock_done (body : World → Outcome) (w w2 : World) (hfree : w.mutexHeld = false)
    (h : body { w with mutexHeld := true } = Outcome.done w2) :
    withLock body w = Outcome.done (unlock w2) := by
  simp [withLock, lock, hfree, h]

theorem handlers_routed (env : Env) (fromClientID : String) (msg : Message) (w : World)
    (hfree : w.mutexHeld = false) :
    Routed env msg w (handleMediaOffer env fromClientID msg w) ∧
    Routed env msg w (handleMediaAnswer env fromClientID msg w) ∧
    Routed env msg w (handleICECandidate env fromClientID msg w) := by
  obtain ⟨users, held, closed, writes, calls⟩ := w
  simp only at hfree
  subst hfree
  refine ⟨?_, ?_, ?_⟩
  · unfold Routed handleMediaOffer
    cases h : Registry.lookup users msg.To <;>
      simp [withLock, lock, unlock, sendMessage, h]
  · unfold Routed handleMediaAnswer
    cases h : Registry.lookup users msg.To <;>
      simp [withLock, lock, unlock, sendMessage, h]
  · unfold Routed handleICECandidate
    cases h : Registry.lookup users msg.To <;>
      simp [withLock, lock, unlock, sendMessage, h]

/-- C2: started with the mutex free, each of `handleMediaOffer`, `handleMediaAnswer`
and `handleICECandidate` returns (it has no result, so no error reaches the
caller) with the registry unchanged; when `msg.To` is registered the writes grow
by exactly one frame, on the connection registered under `msg.To`, carrying
`msg` with every field as received; when it is not, no frame is written.  The
same holds of the `switch` of `handleConnections` on a message of one of the
three types. -/
theorem route_spec (env : Env) (fromClientID : String) (msg : Message) (w : World)
    (hfree : w.mutexHeld = false) :
    Routed env msg w (handleMediaOffer env fromClientID msg w) ∧
    Routed env msg w (handleMediaAnswer env fromClientID msg w) ∧
    Routed env msg w (handleICECandidate env fromClientID msg w) ∧
    (msg.Type_ ∈ ["mediaOffer", "mediaAnswer", "iceCandidate"] →
      Routed env msg w (dispatch env fromClientID msg w)) := by
  obtain ⟨h1, h2, h3⟩ := handlers_routed env fromClientID msg w hfree
  refine ⟨h1, h2, h3, ?_⟩
  intro hty
  simp only [List.mem_cons, List.mem_singleton, List.not_mem_nil, or_false] at hty
  unfold dispatch
  rcases hty with h | h | h
  · rw [if_pos h]
    exact h1
  · rw [if_neg (by rw [h]; decide), if_pos h]
    exact h2
  · rw [if_neg (by rw [h]; decide), if_neg (by rw [h]; decide), if_pos h]
    exact h3

/-- Witness of C2: an offer to a registered user is written once, to that user. -/
theorem route_spec_witness :
    twoUsers.mutexHeld = false ∧
    Routed (calmEnv t2025) offerToKitty twoUsers
      (handleMediaOffer (calmEnv t2025) "🐶 Puppy" offerToKitty twoUsers) :=
  ⟨rfl, (route_spec (calmEnv t2025) "🐶 Puppy" offerToKitty twoUsers rfl).1⟩

/-! ## C3: the call record of an offer -/

theorem le_foldr_max (l : List Nat) : ∀ n ∈ l, n ≤ l.foldr max 0 := by
  induction l with
  | nil => simp
  | cons a l ih =>
    intro n hn
    rcases List.mem_cons.1 hn with h | h
    · subst h
      exact le_max_left _ _
    · exact le_trans (ih n h) (le_max_right _ _)

theorem freshID_not_mem (calls : List Call) : freshID calls ∉ calls.map Call.ID := by
  intro h
  have := le_foldr_max _ _ h
  unfold freshID at this
  omega

/-- C3, the claim as stated, fails: the transport refuses the write to the callee, so
the offer is not delivered, and the call record is inserted all the same. -/
theorem handleMediaOffer_inserts_undelivered :
    (handleMediaOffer (lossyEnv t2025) "🐶 Puppy" offerToKitty twoUsers).world.writes =
      [⟨2, offerToKitty, false⟩] ∧
    twoUsers.calls = [] ∧
    (handleMediaOffer (lossyEnv t2025) "🐶 Puppy" offerToKitty twoUsers).world.calls =
      [⟨1, "🐶 Puppy", "🐱 Kitty", t2025, zeroTime, 0⟩] := by
  decide

/-- C3 as amended: `handleMediaOffer`, started with the mutex free, returns; when
`msg.To` is registered and `InsertOne` succeeds, whether or not the write to
the callee did, the store afterwards is the store before followed by one new
record with a new `_id`, `from` the sender, `to = msg.To`, `start_time` the
clock reading, zero `end_time` and duration 0; when `msg.To` is not registered
(or `InsertOne` fails) the store is unchanged. -/
theorem handleMediaOffer_calls (env : Env) (fromClientID : String) (msg : Message) (w : World)
    (hfree : w.mutexHeld = false) :
    ∃ w1 : World, handleMediaOffer env fromClientID msg w = Outcome.done w1 ∧
      ((Registry.lookup w.users msg.To).isSome = true → env.insertErr = false →
        w1.calls = w.calls ++
          [⟨freshID w.calls, fromClientID, msg.To, env.now, zeroTime, 0⟩] ∧
        freshID w.calls ∉ w.calls.map Call.ID) ∧
      (Registry.lookup w.users msg.To = none → w1.calls = w.calls) ∧
      (env.insertErr = true → w1.calls = w.calls) := by
  obtain ⟨users, held, closed, writes, calls⟩ := w
  simp only at hfree
  subst hfree
  unfold handleMediaOffer
  cases h : Registry.lookup users msg.To with
  | none => simp [withLock, lock, unlock, h]
  | some conn =>
    refine ⟨_, withLock_done _ _ _ rfl (by simp only [h]; rfl), ?_, ?_, ?_⟩
    · intro _ hins
      exact ⟨by simp [unlock, sendMessage, insertOne, hins], freshID_not_mem _⟩
    · intro h1
      simp at h1
    · intro hins
      simp [unlock, sendMessage, insertOne, hins]

/-- Witness of C3 as amended: the record of an offer whose write failed. -/
theorem handleMediaOffer_calls_witness :
    twoUsers.mutexHeld = false ∧
    ∃ w1 : World,
      handleMediaOffer (lossyEnv t2025) "🐶 Puppy" offerToKitty twoUsers = Outcome.done w1 ∧
      w1.calls = [⟨1, "🐶 Puppy", "🐱 Kitty", t2025, zeroTime, 0⟩] := by
  refine ⟨rfl, ?_⟩
  obtain ⟨w1, h1, h2, _, _⟩ :=
    handleMediaOffer_calls (lossyEnv t2025) "🐶 Puppy" offerToKitty twoUsers rfl
  exact ⟨w1, h1, (h2 (by decide) rfl).1⟩

/-! ## C4: the duration of a closed record -/

/-- C4 fails on the code: after two successive calls between the same two users, each
offer delivered and each hangup matched, with an increasing clock and no store
error, the second record is closed with the placeholder duration of line 374,
`endTime.Sub(time.Time{})` saturated to the largest `Duration`, and not with its
three minutes; the re-fetch found the first record and rewrote that one. -/
theorem handleHangup_second_call_duration :
    afterFirstCall.calls =
      [⟨1, "🐶 Puppy", "🐱 Kitty", t2025, t2025 + 60 * second, 60 * second⟩] ∧
    afterSecondCall.calls =
      [⟨1, "🐶 Puppy", "🐱 Kitty", t2025, t2025 + 60 * second, 60 * second⟩,
       ⟨2, "🐶 Puppy", "🐱 Kitty", t2025 + 120 * second, t2025 + 300 * second,
         9223372036854775807⟩] ∧
    afterFirstCall.calls.all durationOK = true ∧
    afterSecondCall.calls.all durationOK = false := by
  decide

/-! ## C8 and C10: disconnect -/

/-- The function `removeUser` never returns when started with the mutex free: it takes
the mutex, deletes the identifier, and `updateUserList` then waits for the mutex
its own caller holds.  Nothing is written and the mutex stays held. -/
theorem removeUser_blocks (env : Env) (clientID : String) (w : World)
    (hfree : w.mutexHeld = false) :
    removeUser env clientID w =
      Outcome.blocked
        { w with users := Registry.delete w.users clientID, mutexHeld := true } := by
  simp [removeUser, updateUserList, withLock, lock, hfree]

/-- C8 fails on the code: when the session of the first of two users gets a read error,
`removeUser` and with it the handler never return; the mutex stays held, no
roster frame is written to the remaining user, and only the deletion has
happened. -/
theorem disconnect_deadlocks :
    removeUser (calmEnv t2025) "🐶 Puppy" twoUsers =
      Outcome.blocked { users := [("🐱 Kitty", 2)], mutexHeld := true } ∧
    disconnect (calmEnv t2025) "🐶 Puppy" 1 twoUsers =
      Outcome.blocked { users := [("🐱 Kitty", 2)], mutexHeld := true } ∧
    (disconnect (calmEnv t2025) "🐶 Puppy" 1 twoUsers).returned = false ∧
    (disconnect (calmEnv t2025) "🐶 Puppy" 1 twoUsers).world.writes = [] := by
  decide

/-- C10 fails on the code: once a second session has taken over the identifier (the
registry maps it to connection 2 and connection 1 is closed), the cleanup of the
evicted first session deletes that identifier, so the registry no longer maps
it to connection 2; the cleanup then stops for ever inside `removeUser`.  The
`delete` of lines 267 and 204 alone already drops the entry of connection 2. -/
theorem disconnect_after_eviction :
    afterCollision.users = [("🐶 Puppy", 2)] ∧
    afterCollision.closed = [1] ∧
    afterCollision.mutexHeld = false ∧
    Registry.delete afterCollision.users "🐶 Puppy" = [] ∧
    Registry.lookup (disconnect (calmEnv t2025) "🐶 Puppy" 1 afterCollision).world.users
      "🐶 Puppy" = none ∧
    (disconnect (calmEnv t2025) "🐶 Puppy" 1 afterCollision).returned = false := by
  decide

/-! ## Facts about the store and `handleHangup` -/

theorem updateFirst_of_none (filter : Call → Bool) (set : Call → Call) (l : List Call)
    (h : ∀ c ∈ l, filter c = false) : updateFirst filter set l = l := by
  induction l with
  | nil => rfl
  | cons c cs ih =>
    have hc : filter c = false := h c (List.mem_cons_self _ _)
    have hcs : ∀ x ∈ cs, filter x = false := fun x hx => h x (List.mem_cons_of_mem _ hx)
    simp [updateFirst, hc, ih hcs]

theorem any_of_none (filter : Call → Bool) (l : List Call)
    (h : ∀ c ∈ l, filter c = false) : l.any filter = false := by
  rw [List.any_eq_false]
  intro c hc
  simp [h c hc]

theorem betweenOpen_involves {a b : String} {c : Call} (h : betweenOpen a b c = true) :
    involvesOpen a c = true := by
  unfold betweenOpen at h
  unfold involvesOpen
  simp only [decide_eq_true_eq] at *
  rcases h with ⟨h1 | h1, h2⟩
  · exact ⟨Or.inl h1.1, h2⟩
  · exact ⟨Or.inr h1.2, h2⟩

theorem closeCall_of_none (env : Env) (a b : String) (calls : List Call)
    (h : ∀ c ∈ calls, betweenOpen a b c = false) : closeCall env a b calls = calls := by
  unfold closeCall updateOne
  by_cases hu : env.updateErr 0 = true
  · simp [hu]
  · simp [hu, any_of_none _ _ h, updateFirst_of_none _ _ _ h]

/-- The function `handleHangup` spelled out: with the mutex free it returns, having
forwarded the message and run the store update for the target it resolved. -/
theorem handleHangup_eq (env : Env) (fromClientID : String) (msg : Message) (w : World)
    (hfree : w.mutexHeld = false) :
    handleHangup env fromClientID msg w =
      Outcome.done
        (match hangupTarget env fromClientID msg w.calls with
         | none => w
         | some toClientID =>
           { forwardHangup env fromClientID toClientID msg w with
             calls := closeCall env fromClientID toClientID w.calls }) := by
  obtain ⟨users, held, closed, writes, calls⟩ := w
  simp only at hfree
  subst hfree
  unfold handleHangup
  cases h : hangupTarget env fromClientID msg calls with
  | none => simp [withLock, lock, unlock, h]
  | some toClientID =>
    by_cases h1 : toClientID ≠ "" ∧ toClientID ≠ fromClientID
    · cases h2 : Registry.lookup users toClientID <;>
        simp [withLock, lock, unlock, h, forwardHangup, h1, h2, sendMessage]
    · simp [withLock, lock, unlock, h, forwardHangup, h1]

/-- What `forwardHangup` does to the state: nothing, or one write of `msg` to the
connection of a target that is not the sender. -/
theorem forwardHangup_cases (env : Env) (fromClientID toClientID : String) (msg : Message)
    (w : World) :
    forwardHangup env fromClientID toClientID msg w = w ∨
    ∃ conn : Conn, Registry.lookup w.users toClientID = some conn ∧
      toClientID ≠ "" ∧ toClientID ≠ fromClientID ∧
      forwardHangup env fromClientID toClientID msg w = sendMessage env conn msg w := by
  unfold forwardHangup
  by_cases h1 : toClientID ≠ "" ∧ toClientID ≠ fromClientID
  · cases h2 : Registry.lookup w.users toClientID with
    | none => left; simp [h1]
    | some conn => right; exact ⟨conn, rfl, h1.1, h1.2, by simp [h1]⟩
  · left; simp [h1]

/-! ## C6: a hangup with no matching call -/

/-- C6: a hangup from `P3`, whatever its `to`, handled with the mutex free in a state
whose store has no open record with `P3` as a party, returns with the store and
the registry as they were; the frames it wrote, if any, went to connections
other than `c3`, the connection that only `P3` can be registered under. -/
theorem handleHangup_no_open_call (env : Env) (P3 : String) (msg : Message) (w : World)
    (c3 : Conn) (hfree : w.mutexHeld = false)
    (hnone : ∀ c ∈ w.calls, involvesOpen P3 c = false)
    (hown : ∀ k : String, Registry.lookup w.users k = some c3 → k = P3) :
    ∃ (w1 : World) (frames : List Write),
      handleHangup env P3 msg w = Outcome.done w1 ∧
      w1.calls = w.calls ∧ w1.users = w.users ∧ w1.mutexHeld = false ∧
      w1.writes = w.writes ++ frames ∧ ∀ wr ∈ frames, wr.conn ≠ c3 := by
  rw [handleHangup_eq env P3 msg w hfree]
  cases h : hangupTarget env P3 msg w.calls with
  | none => exact ⟨w, [], rfl, rfl, rfl, hfree, by simp, by simp⟩
  | some Y =>
    have hcalls : closeCall env P3 Y w.calls = w.calls := by
      apply closeCall_of_none
      intro c hc
      cases hb : betweenOpen P3 Y c with
      | false => rfl
      | true =>
        have h1 := hnone c hc
        rw [betweenOpen_involves hb] at h1
        exact absurd h1 (by simp)
    rcases forwardHangup_cases env P3 Y msg w with h1 | ⟨conn, h2, _, h4, h5⟩
    · refine ⟨_, [], rfl, ?_, ?_, ?_, ?_, by simp⟩
      · simp [hcalls]
      · simp [h1]
      · simp [h1, hfree]
      · simp [h1]
    · refine ⟨_, [⟨conn, msg, !env.writeErr conn⟩], rfl, ?_, ?_, ?_, ?_, ?_⟩
      · simp [hcalls]
      · simp [h5, sendMessage]
      · simp [h5, sendMessage, hfree]
      · simp [h5, sendMessage]
      · intro wr hwr
        rw [List.mem_singleton] at hwr
        subst hwr
        intro hc
        simp only at hc
        exact h4 (hown Y (hc ▸ h2))

/-- Witness of C6: the third user hangs up on the first while the only record, between
the other two, is closed: the frame goes to the first user and the store stays. -/
theorem handleHangup_no_open_call_witness :
    threeUsers.mutexHeld = false ∧
    ∃ (w1 : World) (frames : List Write),
      handleHangup (calmEnv (t2025 + 90 * second)) "🐭 Mouse"
        { Type_ := "hangup", To := "🐶 Puppy" } threeUsers = Outcome.done w1 ∧
      w1.calls = threeUsers.calls ∧ w1.users = threeUsers.users ∧ w1.mutexHeld = false ∧
      w1.writes = threeUsers.writes ++ frames ∧ ∀ wr ∈ frames, wr.conn ≠ 3 :=
  ⟨by decide,
    handleHangup_no_open_call (calmEnv (t2025 + 90 * second)) "🐭 Mouse"
      { Type_ := "hangup", To := "🐶 Puppy" } threeUsers 3 (by decide) (by decide)
      (by
        intro k hk
        by_contra hne
        have h1 : k ≠ "🐶 Puppy" := by
          rintro rfl
          revert hk
          decide
        have h2 : k ≠ "🐱 Kitty" := by
          rintro rfl
          revert hk
          decide
        simp [threeUsers, Registry.lookup, h1.symm, h2.symm, Ne.symm hne] at hk)⟩

/-! ## C7: the roster broadcast -/

theorem Registry.lookup_eq_none_iff (m : Registry) (k : String) :
    Registry.lookup m k = none ↔ k ∉ Registry.keys m := by
  induction m with
  | nil => simp [Registry.lookup, Registry.keys]
  | cons e m ih =>
    obtain ⟨k0, c⟩ := e
    by_cases h : k0 = k
    · simp [Registry.lookup, Registry.keys, h]
    · have h1 : ¬ k = k0 := fun h2 => h h2.symm
      simpa [Registry.lookup, Registry.keys, h, h1] using ih

theorem foldl_sendMessage (env : Env) (msg : Message) (l : Registry) :
    ∀ w : World,
      l.foldl (fun acc user => sendMessage env user.2 msg acc) w =
        { w with
          writes := w.writes ++ l.map (fun user => ⟨user.2, msg, !env.writeErr user.2⟩) } := by
  induction l with
  | nil => intro w; simp
  | cons e l ih =>
    intro w
    rw [List.foldl_cons, ih]
    simp [sendMessage]

/-- The function `updateUserList` spelled out: with the mutex free it returns, having
written the roster message to every entry the second loop visited. -/
theorem updateUserList_eq (env : Env) (w : World) (hfree : w.mutexHeld = false) :
    updateUserList env w =
      Outcome.done
        { w with
          writes := w.writes ++ (env.rangeOrder 1 w.users).map (fun user =>
            ⟨user.2, rosterMessage ((env.rangeOrder 0 w.users).map Prod.fst),
              !env.writeErr user.2⟩) } := by
  obtain ⟨users, held, closed, writes, calls⟩ := w
  simp only at hfree
  subst hfree
  simp [updateUserList, withLock, lock, unlock, foldl_sendMessage, rosterMessage]

/-- C7: `updateUserList`, started with the mutex free on a registry whose identifiers
are distinct and whose connections are distinct, whatever order the two `range`
loops take, returns with the registry unchanged; it writes exactly one frame to
each registered connection and none to any other; every frame carries the same
`userIds` list, a permutation of the registered identifiers without repetition,
so an identifier that is not registered is not listed. -/
theorem updateUserList_spec (env : Env) (w : World) (hfree : w.mutexHeld = false)
    (hwf : Registry.WF w.users) (hinj : (Registry.conns w.users).Nodup)
    (hrange : ∀ (k : Nat) (m : Registry), (env.rangeOrder k m).Perm m) :
    ∃ (w1 : World) (ids : List String) (frames : List Write),
      updateUserList env w = Outcome.done w1 ∧
      w1.users = w.users ∧ w1.mutexHeld = false ∧ w1.calls = w.calls ∧
      w1.writes = w.writes ++ frames ∧
      (∀ wr ∈ frames, wr.msg = rosterMessage ids) ∧
      (∀ c : Conn,
        (frames.map Write.conn).count c = if c ∈ Registry.conns w.users then 1 else 0) ∧
      ids.Perm (Registry.keys w.users) ∧ ids.Nodup ∧
      (∀ id : String, Registry.lookup w.users id = none → id ∉ ids) := by
  have hids : ((env.rangeOrder 0 w.users).map Prod.fst).Perm (Registry.keys w.users) :=
    (hrange 0 w.users).map Prod.fst
  have hconns : ((env.rangeOrder 1 w.users).map Prod.snd).Perm (Registry.conns w.users) :=
    (hrange 1 w.users).map Prod.snd
  refine ⟨_, (env.rangeOrder 0 w.users).map Prod.fst, _, updateUserList_eq env w hfree,
    rfl, hfree, rfl, rfl, ?_, ?_, hids, hids.nodup_iff.2 hwf, ?_⟩
  · intro wr hwr
    obtain ⟨e, _, rfl⟩ := List.mem_map.1 hwr
    rfl
  · intro c
    have hmap : ((env.rangeOrder 1 w.users).map (fun user =>
        (⟨user.2, rosterMessage ((env.rangeOrder 0 w.users).map Prod.fst),
          !env.writeErr user.2⟩ : Write))).map Write.conn =
        (env.rangeOrder 1 w.users).map Prod.snd := by
      rw [List.map_map]
      rfl
    rw [hmap, hconns.count_eq]
    by_cases hc : c ∈ Registry.conns w.users
    · rw [if_pos hc]
      exact List.count_eq_one_of_mem hinj hc
    · rw [if_neg hc]
      exact List.count_eq_zero_of_not_mem hc
  · intro id hid hmem
    exact (Registry.lookup_eq_none_iff _ _).1 hid (hids.mem_iff.1 hmem)

/-- Witness of C7: a broadcast to two users with both loops walking the map backwards. -/
theorem updateUserList_spec_witness :
    twoUsers.mutexHeld = false ∧ Registry.WF twoUsers.users ∧
    (Registry.conns twoUsers.users).Nodup ∧
    ∃ (w1 : World) (ids : List String) (frames : List Write),
      updateUserList (backwardsEnv t2025) twoUsers = Outcome.done w1 ∧
      w1.writes = twoUsers.writes ++ frames ∧
      (∀ wr ∈ frames, wr.msg = rosterMessage ids) ∧
      ids.Perm (Registry.keys twoUsers.users) := by
  have hwf : Registry.WF twoUsers.users := by
    unfold Registry.WF
    decide
  refine ⟨rfl, hwf, by decide, ?_⟩
  obtain ⟨w1, ids, frames, h1, _, _, _, h5, h6, _, h8, _⟩ :=
    updateUserList_spec (backwardsEnv t2025) twoUsers rfl hwf (by decide)
      (fun _ m => List.reverse_perm m)
  exact ⟨w1, ids, frames, h1, h5, h6, h8⟩

/-! ## C9: a record is closed once -/

theorem findOne_mem {fail : Bool} {filter : Call → Bool} {l : List Call} {u : Call}
    (h : findOne fail filter l = some u) : u ∈ l := by
  unfold findOne at h
  by_cases hf : fail = true
  · simp [hf] at h
  · simp only [hf] at h
    exact List.mem_of_find?_eq_some h

/-- The store update of `handleHangup` spelled out: nothing when the first `UpdateOne`
fails; else the first update alone, or the first update followed by the
duration of some document `u` of the updated store written to the document with
the `_id` of `u`. -/
theorem closeCall_cases (env : Env) (a b : String) (calls : List Call) :
    (env.updateErr 0 = true ∧ closeCall env a b calls = calls) ∨
    closeCall env a b calls = updateFirst (betweenOpen a b) (closeNow env) calls ∨
    ∃ u : Call, u ∈ updateFirst (betweenOpen a b) (closeNow env) calls ∧
      closeCall env a b calls =
        updateFirst (hasID u.ID) (setDuration (Time.sub u.EndTime u.StartTime))
          (updateFirst (betweenOpen a b) (closeNow env) calls) := by
  unfold closeCall updateOne
  by_cases h0 : env.updateErr 0 = true
  · left; exact ⟨h0, by simp [h0]⟩
  · right
    simp only [h0]
    by_cases hany : calls.any (betweenOpen a b) = true
    · simp only [hany]
      cases hf : (match findOne (env.findErr 1) (betweenOpen a b)
          (updateFirst (betweenOpen a b)
            (fun c => { c with EndTime := env.now, Duration := Time.sub env.now zeroTime })
            calls) with
        | some c => some c
        | none => findOne (env.findErr 2) (between a b)
            (updateFirst (betweenOpen a b)
              (fun c => { c with EndTime := env.now, Duration := Time.sub env.now zeroTime })
              calls)) with
      | none => left; simp [hf]; rfl
      | some u =>
        have hmem : u ∈ updateFirst (betweenOpen a b) (closeNow env) calls := by
          cases h1 : findOne (env.findErr 1) (betweenOpen a b)
              (updateFirst (betweenOpen a b)
                (fun c => { c with EndTime := env.now, Duration := Time.sub env.now zeroTime })
                calls) with
          | some v =>
            rw [h1] at hf
            simp only [Option.some.injEq] at hf
            subst hf
            exact findOne_mem h1
          | none =>
            rw [h1] at hf
            exact findOne_mem hf
        by_cases h1 : env.updateErr 1 = true
        · left; simp [hf, h1]; rfl
        · right
          refine ⟨u, hmem, ?_⟩
          simp [hf, h1]
          rfl
    · left
      simp [hany]
      rfl

theorem updateFirst_forall₂ {R : Call → Call → Prop} (filter : Call → Bool)
    (set : Call → Call) (hrefl : ∀ c, R c c) (hset : ∀ c, filter c = true → R c (set c)) :
    ∀ l : List Call, List.Forall₂ R l (updateFirst filter set l) := by
  intro l
  induction l with
  | nil => exact List.Forall₂.nil
  | cons c cs ih =>
    unfold updateFirst
    by_cases h : filter c = true
    · rw [if_pos h]
      exact List.Forall₂.cons (hset c h) (List.forall₂_same.2 (fun x _ => hrefl x))
    · rw [if_neg h]
      exact List.Forall₂.cons (hrefl c) ih

theorem forall₂_chain {R S T : Call → Call → Prop}
    (h : ∀ a b c, R a b → S b c → T a c) :
    ∀ {l1 l2 l3 : List Call}, List.Forall₂ R l1 l2 → List.Forall₂ S l2 l3 →
      List.Forall₂ T l1 l3 := by
  intro l1 l2 l3 h12
  induction h12 generalizing l3 with
  | nil => intro h23; cases h23; exact List.Forall₂.nil
  | cons hab _ ih =>
    intro h23
    cases h23 with
    | cons hbc htail => exact List.Forall₂.cons (h _ _ _ hab hbc) (ih htail)

theorem forall₂_getElem? {R : Call → Call → Prop} {l1 l2 : List Call}
    (h : List.Forall₂ R l1 l2) :
    ∀ (i : Nat) (c : Call), l1[i]? = some c → ∃ c1 : Call, l2[i]? = some c1 ∧ R c c1 := by
  induction h with
  | nil => intro i c hc; simp at hc
  | cons hab _ ih =>
    intro i c hc
    cases i with
    | zero =>
      simp only [List.getElem?_cons_zero, Option.some.injEq] at hc
      subst hc
      exact ⟨_, by simp, hab⟩
    | succ j =>
      simp only [List.getElem?_cons_succ] at hc
      simpa using ih j c hc

theorem map_EndTime_setDuration (filter : Call → Bool) (d : Duration) (l : List Call) :
    (updateFirst filter (setDuration d) l).map Call.EndTime = l.map Call.EndTime := by
  induction l with
  | nil => rfl
  | cons c cs ih =>
    unfold updateFirst
    by_cases h : filter c = true
    · simp [h, setDuration]
    · simp [h, ih]

theorem zip_self_filter_ne (l : List Time) :
    (l.zip l).filter (fun p => decide (p.1 ≠ p.2)) = [] := by
  induction l with
  | nil => rfl
  | cons a l ih =>
    rw [List.zip_cons_cons, List.filter_cons, ih]
    simp

theorem endTimeChanges_self (l : List Call) : endTimeChanges l l = 0 := by
  unfold endTimeChanges
  rw [zip_self_filter_ne]
  rfl

theorem endTimeChanges_updateFirst (filter : Call → Bool) (set : Call → Call) (l : List Call) :
    endTimeChanges l (updateFirst filter set l) ≤ 1 := by
  induction l with
  | nil => simp [endTimeChanges, updateFirst]
  | cons c cs ih =>
    unfold updateFirst
    by_cases h : filter c = true
    · rw [if_pos h]
      unfold endTimeChanges
      simp only [List.map_cons, List.zip_cons_cons, List.filter_cons, zip_self_filter_ne]
      split <;> simp
    · rw [if_neg h]
      unfold endTimeChanges at *
      simpa using ih

theorem HangupKeeps.refl (X Y : String) (c : Call) : HangupKeeps X Y c c :=
  ⟨rfl, rfl, rfl, rfl, fun h => absurd rfl h⟩

theorem closeCall_keeps (env : Env) (X Y : String) (calls : List Call) :
    List.Forall₂ (HangupKeeps X Y) calls (closeCall env X Y calls) ∧
    endTimeChanges calls (closeCall env X Y calls) ≤ 1 := by
  have hfirst : List.Forall₂ (HangupKeeps X Y) calls
      (updateFirst (betweenOpen X Y) (closeNow env) calls) := by
    apply updateFirst_forall₂ _ _ (HangupKeeps.refl X Y)
    intro c hc
    refine ⟨rfl, rfl, rfl, rfl, fun _ => ?_⟩
    unfold betweenOpen at hc
    unfold between
    simp only [decide_eq_true_eq] at *
    exact ⟨hc.2, hc.1⟩
  rcases closeCall_cases env X Y calls with ⟨_, h⟩ | h | ⟨u, _, h⟩
  · rw [h]
    exact ⟨List.forall₂_same.2 (fun c _ => HangupKeeps.refl X Y c), by simp [endTimeChanges_self]⟩
  · rw [h]
    exact ⟨hfirst, endTimeChanges_updateFirst _ _ _⟩
  · rw [h]
    constructor
    · refine forall₂_chain (S := fun c c1 => c1.ID = c.ID ∧ c1.From = c.From ∧ c1.To = c.To ∧
          c1.StartTime = c.StartTime ∧ c1.EndTime = c.EndTime) ?_ hfirst ?_
      · rintro a b c ⟨h1, h2, h3, h4, h5⟩ ⟨k1, k2, k3, k4, k5⟩
        exact ⟨k1.trans h1, k2.trans h2, k3.trans h3, k4.trans h4, fun hne => h5 (k5 ▸ hne)⟩
      · apply updateFirst_forall₂
        · intro c; exact ⟨rfl, rfl, rfl, rfl, rfl⟩
        · intro c _; exact ⟨rfl, rfl, rfl, rfl, rfl⟩
    · have hmap := map_EndTime_setDuration (hasID u.ID) (Time.sub u.EndTime u.StartTime)
        (updateFirst (betweenOpen X Y) (closeNow env) calls)
      have h1 := endTimeChanges_updateFirst (betweenOpen X Y) (closeNow env) calls
      unfold endTimeChanges at *
      rw [hmap]
      exact h1

/-- The store after `handleHangup`: as before, or the result of the store update for
the target that was resolved. -/
theorem handleHangup_calls (env : Env) (X : String) (msg : Message) (w : World) :
    (handleHangup env X msg w).world.calls = w.calls ∨
    ∃ Y : String, hangupTarget env X msg w.calls = some Y ∧
      (handleHangup env X msg w).world.calls = closeCall env X Y w.calls := by
  by_cases hfree : w.mutexHeld = false
  · rw [handleHangup_eq env X msg w hfree]
    cases h : hangupTarget env X msg w.calls with
    | none => left; rfl
    | some Y => right; exact ⟨Y, rfl, rfl⟩
  · left
    simp [handleHangup, withLock, lock, hfree, Outcome.world]

/-- The store after `handleMediaOffer`: as before, or with one record appended. -/
theorem handleMediaOffer_calls_cases (env : Env) (X : String) (msg : Message) (w : World) :
    (handleMediaOffer env X msg w).world.calls = w.calls ∨
    ∃ c : Call, (handleMediaOffer env X msg w).world.calls = w.calls ++ [c] := by
  obtain ⟨users, held, closed, writes, calls⟩ := w
  unfold handleMediaOffer
  cases held with
  | true => left; simp [withLock, lock, Outcome.world]
  | false =>
    cases h : Registry.lookup users msg.To with
    | none => left; simp [withLock, lock, unlock, Outcome.world, h]
    | some conn =>
      by_cases hins : env.insertErr = true
      · left; simp [withLock, lock, unlock, Outcome.world, h, sendMessage, insertOne, hins]
      · right
        exact ⟨⟨freshID calls, X, msg.To, env.now, zeroTime, 0⟩,
          by simp [withLock, lock, unlock, Outcome.world, h, sendMessage, insertOne, hins]⟩

theorem apply_keeps_closed (e : LedgerEvent) (w : World) (i : Nat) (c : Call)
    (hc : w.calls[i]? = some c) (hclosed : c.EndTime ≠ zeroTime) :
    ∃ c1 : Call, (LedgerEvent.apply e w).calls[i]? = some c1 ∧ c1.ID = c.ID ∧
      c1.EndTime = c.EndTime := by
  cases e with
  | offer env X msg =>
    unfold LedgerEvent.apply
    rcases handleMediaOffer_calls_cases env X msg w with h | ⟨c0, h⟩
    · rw [h]; exact ⟨c, hc, rfl, rfl⟩
    · rw [h]
      refine ⟨c, ?_, rfl, rfl⟩
      have hi : i < w.calls.length := by
        by_contra hlt
        rw [List.getElem?_eq_none (Nat.le_of_not_lt hlt)] at hc
        simp at hc
      rw [List.getElem?_append_left hi]
      exact hc
  | hangup env X msg =>
    unfold LedgerEvent.apply
    rcases handleHangup_calls env X msg w with h | ⟨Y, _, h⟩
    · rw [h]; exact ⟨c, hc, rfl, rfl⟩
    · rw [h]
      obtain ⟨c1, h1, h2, _, _, _, h6⟩ :=
        forall₂_getElem? (closeCall_keeps env X Y w.calls).1 i c hc
      refine ⟨c1, h1, h2, ?_⟩
      by_contra hne
      exact hclosed (h6 hne).1

theorem runEvents_keeps_closed (events : List LedgerEvent) :
    ∀ (w : World) (i : Nat) (c : Call), w.calls[i]? = some c → c.EndTime ≠ zeroTime →
      ∃ c1 : Call, (runEvents events w).calls[i]? = some c1 ∧ c1.ID = c.ID ∧
        c1.EndTime = c.EndTime := by
  induction events with
  | nil => intro w i c hc _; exact ⟨c, hc, rfl, rfl⟩
  | cons e es ih =>
    intro w i c hc hclosed
    obtain ⟨c1, h1, h2, h3⟩ := apply_keeps_closed e w i c hc hclosed
    obtain ⟨c2, k1, k2, k3⟩ := ih (LedgerEvent.apply e w) i c1 h1 (h3 ▸ hclosed)
    exact ⟨c2, k1, k2.trans h2, k3.trans h3⟩

/-- C9: whatever the state, after `handleHangup` from `X` every record of the store is
in its place with the same `_id`, parties and start; a record whose `end_time`
changed was open before and lies between `X` and the resolved target `Y`, in
one direction or the other; when no target is resolved the store is as before;
at most one record has a changed `end_time`; and over any sequence of offers and
hangups a record that is closed keeps its `end_time` for good. -/
theorem handleHangup_end_times (env : Env) (X : String) (msg : Message) (w : World) :
    (∀ Y : String, hangupTarget env X msg w.calls = some Y →
      List.Forall₂ (HangupKeeps X Y) w.calls (handleHangup env X msg w).world.calls) ∧
    (hangupTarget env X msg w.calls = none →
      (handleHangup env X msg w).world.calls = w.calls) ∧
    endTimeChanges w.calls (handleHangup env X msg w).world.calls ≤ 1 ∧
    (∀ (i : Nat) (c : Call), w.calls[i]? = some c → c.EndTime ≠ zeroTime →
      ∃ c1 : Call, (handleHangup env X msg w).world.calls[i]? = some c1 ∧
        c1.EndTime = c.EndTime) ∧
    (∀ (events : List LedgerEvent) (w0 : World) (i : Nat) (c : Call),
      w0.calls[i]? = some c → c.EndTime ≠ zeroTime →
      ∃ c1 : Call, (runEvents events w0).calls[i]? = some c1 ∧ c1.ID = c.ID ∧
        c1.EndTime = c.EndTime) := by
  refine ⟨?_, ?_, ?_, ?_, fun events => runEvents_keeps_closed events⟩
  · intro Y hY
    rcases handleHangup_calls env X msg w with h | ⟨Y1, hY1, h⟩
    · rw [h]
      exact List.forall₂_same.2 (fun c _ => HangupKeeps.refl X Y c)
    · rw [h]
      have hYY : Y1 = Y := by
        rw [hY] at hY1
        exact (Option.some.inj hY1).symm
      subst hYY
      exact (closeCall_keeps env X Y1 w.calls).1
  · intro hnone
    rcases handleHangup_calls env X msg w with h | ⟨Y1, hY1, _⟩
    · exact h
    · rw [hnone] at hY1
      simp at hY1
  · rcases handleHangup_calls env X msg w with h | ⟨Y1, _, h⟩
    · rw [h, endTimeChanges_self]
      exact Nat.zero_le _
    · rw [h]
      exact (closeCall_keeps env X Y1 w.calls).2
  · intro i c hc hclosed
    obtain ⟨c1, h1, _, h3⟩ :=
      apply_keeps_closed (LedgerEvent.hangup env X msg) w i c hc hclosed
    exact ⟨c1, h1, h3⟩

/-! ## C5: a hangup that names no target -/

theorem updateFirst_append (filter : Call → Bool) (set : Call → Call) (l1 : List Call)
    (r : Call) (l2 : List Call) (h1 : ∀ x ∈ l1, filter x = false) (hr : filter r = true) :
    updateFirst filter set (l1 ++ r :: l2) = l1 ++ set r :: l2 := by
  induction l1 with
  | nil => simp [updateFirst, hr]
  | cons c cs ih =>
    have hc : filter c = false := h1 c (List.mem_cons_self _ _)
    have hcs : ∀ x ∈ cs, filter x = false := fun x hx => h1 x (List.mem_cons_of_mem _ hx)
    simp [updateFirst, hc, ih hcs]

theorem updateFirst_getElem? (filter : Call → Bool) (set : Call → Call) :
    ∀ (l : List Call) (i : Nat) (x : Call), l[i]? = some x →
      (updateFirst filter set l)[i]? = some x ∨
      (filter x = true ∧ (updateFirst filter set l)[i]? = some (set x)) := by
  intro l
  induction l with
  | nil => intro i x hx; simp at hx
  | cons c cs ih =>
    intro i x hx
    unfold updateFirst
    by_cases h : filter c = true
    · rw [if_pos h]
      cases i with
      | zero =>
        simp only [List.getElem?_cons_zero, Option.some.injEq] at hx
        subst hx
        right
        exact ⟨h, by simp⟩
      | succ j =>
        left
        simpa using hx
    · rw [if_neg h]
      cases i with
      | zero => left; simpa using hx
      | succ j =>
        simp only [List.getElem?_cons_succ] at hx
        simpa using ih j x hx

theorem Time.sub_nonneg {t u : Int} (h : u ≤ t) : 0 ≤ Time.sub t u := by
  show 0 ≤ (if minDuration ≤ t - u ∧ t - u ≤ maxDuration then t - u
    else if t < u then minDuration else maxDuration)
  by_cases h1 : minDuration ≤ t - u ∧ t - u ≤ maxDuration
  · rw [if_pos h1]
    omega
  · have h2 : ¬ t < u := by omega
    rw [if_neg h1, if_neg h2]
    decide

theorem animalNames_ne_empty : ∀ n ∈ animalNames, n ≠ "" := by
  decide

/-- C5, the claim as stated, fails.  In each of three runs both users are registered and
the search for an open record involving the callee returns a record from the
caller to the callee, and the callee hangs up without naming a target.  When
the first `UpdateOne` returns an error the record stays open; when the clock
reads five seconds before the start of the record its duration is written as
minus five seconds; when the clock reads before the zero time and a second open
record exists, the closed record keeps a negative placeholder. -/
theorem handleHangup_without_target_fails :
    Registry.lookup duringCall.users "🐶 Puppy" = some 1 ∧
    Registry.lookup duringCall.users "🐱 Kitty" = some 2 ∧
    findOne false (involvesOpen "🐱 Kitty") duringCall.calls =
      some ⟨1, "🐶 Puppy", "🐱 Kitty", t2025, zeroTime, 0⟩ ∧
    (handleHangup (brokenUpdateEnv (t2025 + 120 * second)) "🐱 Kitty" hangupNoTarget
        duringCall).world.calls =
      [⟨1, "🐶 Puppy", "🐱 Kitty", t2025, zeroTime, 0⟩] ∧
    (handleHangup (calmEnv (t2025 - 5 * second)) "🐱 Kitty" hangupNoTarget
        duringCall).world.calls =
      [⟨1, "🐶 Puppy", "🐱 Kitty", t2025, t2025 - 5 * second, -5 * second⟩] ∧
    findOne false (involvesOpen "🐱 Kitty") twoOpenCalls.calls =
      some ⟨1, "🐶 Puppy", "🐱 Kitty", -100 * second, zeroTime, 0⟩ ∧
    (handleHangup (calmEnv (-10 * second)) "🐱 Kitty" hangupNoTarget
        twoOpenCalls).world.calls =
      [⟨1, "🐶 Puppy", "🐱 Kitty", -100 * second, -10 * second, -10 * second⟩,
       ⟨2, "🐶 Puppy", "🐱 Kitty", -50 * second, zeroTime, 50 * second⟩] := by
  decide

/-- C5 as amended: let `P1`, an identifier of the table, be registered on `c1`, let `P2`
differ from it, and let the search for an open record involving `P2` return `r`
with `from = P1` and `to = P2`, in a store whose documents have distinct `_id`s.
A hangup from `P2` with empty `to`, handled with the mutex free, returns, having
resolved the target `P1` and written the message once, to `c1` and to no other
connection; and when the first `UpdateOne` succeeds and the clock reads neither
before the zero time nor before the start of `r`, it leaves `r`, in its place in
the store, with `end_time` the clock reading and a duration that is not
negative. -/
theorem handleHangup_without_target (env : Env) (P1 P2 : String) (c1 : Conn) (msg : Message)
    (w : World) (r : Call)
    (hfree : w.mutexHeld = false) (hP1 : P1 ∈ animalNames) (hne : P1 ≠ P2)
    (hreg : Registry.lookup w.users P1 = some c1) (hto : msg.To = "")
    (hids : (w.calls.map Call.ID).Nodup)
    (hfind : findOne (env.findErr 0) (involvesOpen P2) w.calls = some r)
    (hfrom : r.From = P1) (hrto : r.To = P2) :
    ∃ w1 : World,
      handleHangup env P2 msg w = Outcome.done w1 ∧
      hangupTarget env P2 msg w.calls = some P1 ∧
      w1.writes = w.writes ++ [⟨c1, msg, !env.writeErr c1⟩] ∧
      (env.updateErr 0 = false → 0 ≤ env.now → r.StartTime ≤ env.now →
        ∃ (i : Nat) (d : Duration),
          w.calls[i]? = some r ∧
          w1.calls[i]? = some { r with EndTime := env.now, Duration := d } ∧
          0 ≤ d) := by
  have hP1ne : P1 ≠ "" := animalNames_ne_empty P1 hP1
  have hfind1 : w.calls.find? (involvesOpen P2) = some r := by
    unfold findOne at hfind
    by_cases hf : env.findErr 0 = true
    · simp [hf] at hfind
    · simpa [hf] using hfind
  obtain ⟨hr, l1, l2, hsplit, hl1⟩ := List.find?_eq_some.1 hfind1
  have hopen : r.EndTime = zeroTime := by
    unfold involvesOpen at hr
    simp only [decide_eq_true_eq] at hr
    exact hr.2
  have htarget : hangupTarget env P2 msg w.calls = some P1 := by
    have h1 : ¬ r.From = P2 := fun h => hne (hfrom ▸ h)
    unfold hangupTarget
    rw [if_pos hto, hfind]
    simp only [hfrom, if_neg hne]
  have hbr : betweenOpen P2 P1 r = true := by
    unfold betweenOpen
    simp only [decide_eq_true_eq]
    exact ⟨Or.inr ⟨hfrom, hrto⟩, hopen⟩
  have hbl1 : ∀ x ∈ l1, betweenOpen P2 P1 x = false := by
    intro x hx
    cases hb : betweenOpen P2 P1 x with
    | false => rfl
    | true =>
      have h1 := hl1 x hx
      rw [betweenOpen_involves hb] at h1
      simp at h1
  have hcl1 : updateFirst (betweenOpen P2 P1) (closeNow env) w.calls =
      l1 ++ closeNow env r :: l2 := by
    rw [hsplit]
    exact updateFirst_append _ _ _ _ _ hbl1 hbr
  have hget0 : w.calls[l1.length]? = some r := by
    rw [hsplit, List.getElem?_append_right (Nat.le_refl _)]
    simp
  have hget1 : (l1 ++ closeNow env r :: l2)[l1.length]? = some (closeNow env r) := by
    rw [List.getElem?_append_right (Nat.le_refl _)]
    simp
  have hforward : forwardHangup env P2 P1 msg w = sendMessage env c1 msg w := by
    unfold forwardHangup
    simp [hP1ne, hne, hreg]
  have hres : handleHangup env P2 msg w =
      Outcome.done
        { sendMessage env c1 msg w with calls := closeCall env P2 P1 w.calls } := by
    rw [handleHangup_eq env P2 msg w hfree, htarget]
    simp only [hforward]
  refine ⟨_, hres, htarget, rfl, ?_⟩
  intro hupd hnow hstart
  have hplace : 0 ≤ Time.sub env.now zeroTime := Time.sub_nonneg hnow
  rcases closeCall_cases env P2 P1 w.calls with ⟨h0, _⟩ | h | ⟨u, hu, h⟩
  · rw [hupd] at h0
    simp at h0
  · refine ⟨l1.length, Time.sub env.now zeroTime, hget0, ?_, hplace⟩
    show (closeCall env P2 P1 w.calls)[l1.length]? = _
    rw [h, hcl1]
    exact hget1
  · rw [hcl1] at h hu
    rcases updateFirst_getElem? (hasID u.ID) (setDuration (Time.sub u.EndTime u.StartTime))
        _ _ _ hget1 with h1 | ⟨h1, h2⟩
    · refine ⟨l1.length, Time.sub env.now zeroTime, hget0, ?_, hplace⟩
      show (closeCall env P2 P1 w.calls)[l1.length]? = _
      rw [h]
      exact h1
    · have hidnodup : ((l1 ++ closeNow env r :: l2).map Call.ID).Nodup := by
        have h3 : (l1 ++ closeNow env r :: l2).map Call.ID = w.calls.map Call.ID := by
          rw [hsplit]
          simp [closeNow]
        rw [h3]
        exact hids
      have hmemr : closeNow env r ∈ l1 ++ closeNow env r :: l2 := by simp
      have hsame : (closeNow env r).ID = u.ID := by
        unfold hasID at h1
        simpa using h1
      have hu_eq : closeNow env r = u := List.inj_on_of_nodup_map hidnodup hmemr hu hsame
      refine ⟨l1.length, Time.sub env.now r.StartTime, hget0, ?_, Time.sub_nonneg hstart⟩
      show (closeCall env P2 P1 w.calls)[l1.length]? = _
      rw [h, h2, ← hu_eq]
      rfl

/-- Witness of C5 as amended: the callee of the only open call hangs up without naming
the caller, two minutes into the call. -/
theorem handleHangup_without_target_witness :
    duringCall.mutexHeld = false ∧
    findOne ((calmEnv (t2025 + 120 * second)).findErr 0) (involvesOpen "🐱 Kitty")
      duringCall.calls = some ⟨1, "🐶 Puppy", "🐱 Kitty", t2025, zeroTime, 0⟩ ∧
    ∃ (w1 : World) (i : Nat) (d : Duration),
      handleHangup (calmEnv (t2025 + 120 * second)) "🐱 Kitty" hangupNoTarget duringCall =
        Outcome.done w1 ∧
      hangupTarget (calmEnv (t2025 + 120 * second)) "🐱 Kitty" hangupNoTarget
        duringCall.calls = some "🐶 Puppy" ∧
      w1.writes = duringCall.writes ++ [⟨1, hangupNoTarget, true⟩] ∧
      duringCall.calls[i]? = some ⟨1, "🐶 Puppy", "🐱 Kitty", t2025, zeroTime, 0⟩ ∧
      w1.calls[i]? = some ⟨1, "🐶 Puppy", "🐱 Kitty", t2025, t2025 + 120 * second, d⟩ ∧
      0 ≤ d := by
  refine ⟨by decide, by decide, ?_⟩
  obtain ⟨w1, h1, h2, h3, h4⟩ :=
    handleHangup_without_target (calmEnv (t2025 + 120 * second)) "🐶 Puppy" "🐱 Kitty" 1
      hangupNoTarget duringCall ⟨1, "🐶 Puppy", "🐱 Kitty", t2025, zeroTime, 0⟩
      (by decide) (by decide) (by decide) (by decide) (by decide) (by decide) (by decide)
      rfl rfl
  obtain ⟨i, d, h5, h6, h7⟩ := h4 rfl (by decide) (by decide)
  exact ⟨w1, i, d, h1, h2, h3, h5, h6, h7⟩

end Server
